import Mathlib

/-!
Verification of the spreadsheet-backed record store of the workout tracker
(src/main.py).  Python strings are modelled as `List Char`, spreadsheet cell
values as an explicit `Cell` type, rational arithmetic stands for the
real-number intent of the Python float formulas, and each Streamlit handler
is embedded as a pure function of exactly the data it reads.
-/

namespace WorkoutApp

/-- Python `str.lower` (ASCII case folding, as used on unit cells at
src/main.py line 365). -/
def pyLower (s : List Char) : List Char := s.map Char.toLower

/-- Python `str.strip`: drop whitespace from both ends (used inside
`normalize_id`, src/main.py line 164). -/
def pyStrip (s : List Char) : List Char :=
  ((s.dropWhile Char.isWhitespace).reverse.dropWhile Char.isWhitespace).reverse

/-- The decimal digit character for `d < 10` (`'0'` has code 48). -/
def digitChar (d : Nat) : Char := Char.ofNat (48 + d)

/-- Numeric value of a decimal digit character. -/
def digitVal (c : Char) : Nat := c.toNat - 48

/-- Fuelled most-significant-first decimal digit expansion; `fuel > n`
always suffices.  (Fuelled so that the definition reduces inside the
kernel.) -/
def natDigitsAux (fuel n : Nat) : List Char :=
  match fuel with
  | 0 => []
  | fuel + 1 =>
    if n < 10 then [digitChar n]
    else natDigitsAux fuel (n / 10) ++ [digitChar (n % 10)]

/-- Decimal digit string of a natural number, as Python `str`/`format`
produce it. -/
def natDigits (n : Nat) : List Char := natDigitsAux (n + 1) n

/-- Python `int(s)` restricted to the shapes that reach it in src/main.py
(line 668): a non-empty string of decimal digits parses to its value, and
everything else raises `ValueError`, i.e. yields `none`. -/
def parseNatDigits (s : List Char) : Option Nat :=
  if s = [] then none
  else if s.all Char.isDigit then
    some (s.foldl (fun a c => a * 10 + digitVal c) 0)
  else none

/-- Python `int(s)` as used by `pd.to_numeric` on id cells: optional leading
minus sign, then digits, with surrounding whitespace stripped. -/
def parseIntChars (s0 : List Char) : Option Int :=
  match pyStrip s0 with
  | '-' :: rest => (parseNatDigits rest).map (fun n => -(n : Int))
  | s => (parseNatDigits s).map (fun n => (n : Int))

/-- A spreadsheet cell as returned by `get_all_records`: a number, a string,
or an empty/missing cell. -/
inductive Cell where
  | num (n : Int)
  | str (s : List Char)
  | blank
deriving DecidableEq

/-- Embedding of `pd.to_numeric(col, errors='coerce').fillna(0).astype(int)`
applied to the `ID` column (src/main.py lines 88-89 and 608-609): numeric
cells keep their value, non-numeric strings and missing cells become `0`. -/
def coerceIdCell : Cell → Int
  | Cell.num n => n
  | Cell.str s => (parseIntChars s).getD 0
  | Cell.blank => 0

/-- `xs.foldl max x`: pandas `Series.max()` over a non-empty integer
column whose first element is `x`. -/
def listMax (x : Int) (xs : List Int) : Int := xs.foldl max x

/-- Embedding of the id allocation at src/main.py lines 290-293:
`start_id = 1` if the log table is empty, else `df_log['ID'].max() + 1`. -/
def startId : List Int → Int
  | [] => 1
  | x :: xs => listMax x xs + 1

/-- Python `s.split(d)` for a single-character delimiter `d`
(src/main.py line 159). -/
def pySplit (d : Char) : List Char → List (List Char)
  | [] => [[]]
  | c :: rest =>
    if c = d then [] :: pySplit d rest
    else
      match pySplit d rest with
      | [] => [[c]]
      | h :: t => (c :: h) :: t

/-- Python `d.join(xs)` for a single-character delimiter
(src/main.py line 660). -/
def pyJoin (d : Char) : List (List Char) → List Char
  | [] => []
  | [x] => x
  | x :: y :: t => x ++ d :: pyJoin d (y :: t)

/-- Embedding of `normalize_id` (src/main.py lines 161-167): coerce to a
stripped string and drop one trailing `".0"` artifact. -/
def normalize_id (v : List Char) : List Char :=
  let s := pyStrip v
  if s.reverse.take 2 = ['0', '.'] then s.take (s.length - 2) else s

/-- Embedding of the template id-list split (src/main.py lines 157-159):
pick `'|'` as delimiter when present, else `','` (legacy), and an empty
cell decodes to the empty list. -/
def splitTemplateIds (raw : List Char) : List (List Char) :=
  let delim := if '|' ∈ raw then '|' else ','
  if raw = [] then [] else pySplit delim raw

/-- The full decode pipeline: split as at src/main.py lines 157-159, then
normalize each id as done at every consumption site (lines 201 and 710). -/
def decodeTemplateIds (raw : List Char) : List (List Char) :=
  (splitTemplateIds raw).map normalize_id

/-- Embedding of the template encoder (src/main.py lines 659-660): each
exercise id is normalized and the results are joined with `"|"`. -/
def encodeExerciseIds (rawIds : List (List Char)) : List Char :=
  pyJoin '|' (rawIds.map normalize_id)

/-- The raw per-record fields the derivation step reads (src/main.py lines
360-368), after the numeric coercions of lines 360-361; rational numbers
stand for the real-valued intent of the Python float arithmetic. -/
structure LogMetricsRow where
  weight : ℚ
  unit : List Char
  reps : ℚ

/-- Embedding of the `Weight (kg)` derived column (src/main.py lines
364-367): convert with factor 0.453592 exactly when the lowercased unit is
`"lbs"`. -/
def weightKg (r : LogMetricsRow) : ℚ :=
  if pyLower r.unit = ['l', 'b', 's'] then r.weight * (453592 / 1000000 : ℚ)
  else r.weight

/-- Embedding of the `Estimated 1RM (kg)` derived column (src/main.py line
368): the Epley formula applied unconditionally. -/
def est1RM (r : LogMetricsRow) : ℚ := weightKg r * (1 + r.reps / 30)

/-- A training-log row as the delete handler sees it: the `ID` cell plus
the remaining cells in header order. -/
structure LogRow where
  id : Cell
  rest : List Cell
deriving DecidableEq

/-- The `ID`-column coercion of src/main.py lines 608-609 applied to one
row: the `ID` cell is replaced by its integer coercion, other cells are
untouched. -/
def coerceLogRow (r : LogRow) : LogRow := { r with id := Cell.num (coerceIdCell r.id) }

/-- Embedding of the Delete Selected Rows handler (src/main.py lines
600-626).  The handler re-reads the worksheet inside the handler (line
604), so its input is the *current remote* table; it then coerces the `ID`
column (lines 608-609), filters out the rows whose id is in the delete set
(line 611), and the result is what `clear` + `update` writes back (lines
614-621). -/
def deleteLogHandler (remote : List LogRow) (idsToDelete : List Int) : List LogRow :=
  (remote.map coerceLogRow).filter (fun r => decide (coerceIdCell r.id ∉ idsToDelete))

/-- A template row as the template delete handler sees it: the
`template_id` cell plus the remaining cells. -/
structure TemplateRow where
  template_id : List Char
  rest : List Cell
deriving DecidableEq

/-- Embedding of the Delete Selected Templates handler (src/main.py lines
734-746).  The handler performs no re-read: lines 741-746 filter
`df_templates`, the snapshot loaded by `load_data()` at the top of the
script run (cached with a 5-second ttl), and write the result back; so its
input is that session snapshot, not the current remote table. -/
def deleteTemplatesHandler (dfTemplates : List TemplateRow) (idsToDel : List (List Char)) :
    List TemplateRow :=
  dfTemplates.filter (fun r => decide (r.template_id ∉ idsToDel))

/-- An exercise-master row as the Save Description handler sees it. -/
structure MasterRow where
  exercise_name : List Char
  description : List Char
  rest : List Cell
deriving DecidableEq

/-- `df_master.at[idx, 'description'] = new_desc` (src/main.py line 465):
set the description field of the row at position `idx`. -/
def setDescriptionAt : List MasterRow → Nat → List Char → List MasterRow
  | [], _, _ => []
  | r :: rs, 0, d => { r with description := d } :: rs
  | r :: rs, n + 1, d => r :: setDescriptionAt rs n d

/-- Embedding of the Save Description handler (src/main.py lines 463-477).
The handler performs no re-read: it mutates `df_master` — the snapshot
loaded by `load_data()` at the top of the script run — at the matched index
(line 465) and writes the whole table back with `clear` + `update` (lines
466-471); so its input is that session snapshot, not the current remote
table. -/
def saveDescriptionHandler (dfMaster : List MasterRow) (idx : Nat) (newDesc : List Char) :
    List MasterRow :=
  setDescriptionAt dfMaster idx newDesc

/-- Zero-padding to width 3: Python `f"{num:03d}"` for a natural number
(src/main.py lines 669 and 671). -/
def pad3 (n : Nat) : List Char :=
  List.replicate (3 - (natDigits n).length) '0' ++ natDigits n

/-- `f"TMP{num:03d}"`: the rendered template id. -/
def renderTid (n : Nat) : List Char := 'T' :: 'M' :: 'P' :: pad3 n

/-- Python `last_id.replace("TMP", "")` (src/main.py line 668): remove
every (non-overlapping, left-to-right) occurrence of `"TMP"`. -/
def pyReplaceTMP : List Char → List Char
  | 'T' :: 'M' :: 'P' :: rest => pyReplaceTMP rest
  | c :: rest => c :: pyReplaceTMP rest
  | [] => []

/-- Embedding of the template id allocation (src/main.py lines 663-671):
`"TMP001"` for an empty table, else parse the numeric suffix of the LAST
row's id (`iloc[-1]`), increment and zero-pad; on a parse failure fall back
to `"TMP" + (row count + 1)` zero-padded. -/
def nextTid (tids : List (List Char)) : List Char :=
  match tids.getLast? with
  | none => ['T', 'M', 'P', '0', '0', '1']
  | some lastId =>
    match parseNatDigits (pyReplaceTMP lastId) with
    | some num => renderTid (num + 1)
    | none => renderTid (tids.length + 1)

/-- The table of template ids after `m` consecutive template creations
starting from an empty table (each creation appends `nextTid` of the
current table, src/main.py lines 663-681). -/
def createTemplatesN : Nat → List (List Char)
  | 0 => []
  | m + 1 => createTemplatesN m ++ [nextTid (createTemplatesN m)]

/-- The two mutations of the training log, projected to the `ID` column:
an append assigns `startId` of the current table (src/main.py lines
290-298), a delete filters out the given ids (line 611). -/
inductive LogOp where
  | append
  | deleteByIds (ids : List Int)

/-- One mutation applied to the id column of the log table. -/
def applyLogOp (tbl : List Int) : LogOp → List Int
  | LogOp.append => tbl ++ [startId tbl]
  | LogOp.deleteByIds ids => tbl.filter (fun i => decide (i ∉ ids))

/-- Run a sequence of log mutations from the empty table, returning the
final id column together with the trace of every id the allocator ever
assigned. -/
def runLogOps (ops : List LogOp) : List Int × List Int :=
  ops.foldl
    (fun st op =>
      match op with
      | LogOp.append => (st.1 ++ [startId st.1], st.2 ++ [startId st.1])
      | LogOp.deleteByIds ids => (st.1.filter (fun i => decide (i ∉ ids)), st.2))
    ([], [])

/-- The fixed fallback header used when the log table is empty
(src/main.py line 329). -/
def fallbackLogHeaders : List (List Char) :=
  [['I', 'D'], ['D', 'a', 't', 'e'],
   ['E', 'x', 'e', 'r', 'c', 'i', 's', 'e', 'I', 'D'],
   ['T', 'a', 'r', 'g', 'e', 't'],
   ['E', 'x', 'e', 'r', 'c', 'i', 's', 'e'],
   ['S', 'e', 't', ' ', '#'],
   ['W', 'e', 'i', 'g', 'h', 't'],
   ['U', 'n', 'i', 't'],
   ['R', 'e', 'p', 's'],
   ['R', 'P', 'E'],
   ['S', 'e', 't', ' ', 'T', 'y', 'p', 'e'],
   ['M', 'e', 'm', 'o']]

/-- Embedding of the header choice of the append handler (src/main.py
lines 325-329): the loaded table's live column order when the table is
non-empty, the fixed fallback header otherwise. -/
def headersForAppend (dfLogColumns : List (List Char)) (dfLogIsEmpty : Bool) :
    List (List Char) :=
  if dfLogIsEmpty then fallbackLogHeaders else dfLogColumns

/-- Embedding of the positional row construction of the append handler
(src/main.py lines 331-334): `row_vals = [row_dict.get(h, "") for h in
headers]`. -/
def rowValsFor (headers : List (List Char)) (rowDict : List (List Char × Cell)) :
    List Cell :=
  headers.map (fun h => (rowDict.lookup h).getD (Cell.str []))

/-- The error a worksheet read raises when the named sheet does not exist
(`gspread.exceptions.WorksheetNotFound`, caught at src/main.py line 106). -/
inductive WsError where
  | worksheetNotFound
deriving DecidableEq

/-- A worksheet as a header row plus data rows. -/
structure SheetTable where
  header : List (List Char)
  rows : List (List Cell)
deriving DecidableEq

/-- The header written into a freshly created Template Master sheet
(src/main.py line 109). -/
def templateMasterHeaders : List (List Char) :=
  [['t', 'e', 'm', 'p', 'l', 'a', 't', 'e', '_', 'i', 'd'],
   ['t', 'e', 'm', 'p', 'l', 'a', 't', 'e', '_', 'n', 'a', 'm', 'e'],
   ['e', 'x', 'e', 'r', 'c', 'i', 's', 'e', '_', 'i', 'd', 's'],
   ['c', 'r', 'e', 'a', 't', 'e', 'd', '_', 'a', 't']]

/-- `sh.worksheet` + `get_all_records` (src/main.py lines 103-104): raises
`WorksheetNotFound` when the sheet is absent. -/
def getWorksheetRecords (remote : Option SheetTable) : Except WsError (List (List Cell)) :=
  match remote with
  | some ws => Except.ok ws.rows
  | none => Except.error WsError.worksheetNotFound

/-- Embedding of the Template Master load (src/main.py lines 101-111): on
`WorksheetNotFound` the sheet is created with the fixed 4-column header and
an empty record set is returned; otherwise the records are returned and the
sheet is untouched.  The result is the resulting remote sheet state paired
with the records handed to the caller. -/
def loadTemplateMaster (remote : Option SheetTable) : SheetTable × List (List Cell) :=
  match getWorksheetRecords remote with
  | Except.ok recs => (remote.getD ⟨templateMasterHeaders, []⟩, recs)
  | Except.error WsError.worksheetNotFound =>
    ({ header := templateMasterHeaders, rows := [] }, [])

/-! ### Lemmas about the identifier allocator -/

theorem le_listMax_of_mem : ∀ (y : Int) (ys : List Int) (x : Int),
    x = y ∨ x ∈ ys → x ≤ listMax y ys := by
  intro y ys
  induction ys generalizing y with
  | nil =>
    rintro x (rfl | h)
    · simp [listMax]
    · cases h
  | cons z zs ih =>
    have hstep : ∀ w : Int, listMax w (z :: zs) = listMax (max w z) zs := fun w => rfl
    rintro x (rfl | h)
    · rw [hstep]
      exact le_trans (le_max_left x z) (ih (max x z) (max x z) (Or.inl rfl))
    · rcases List.mem_cons.mp h with rfl | h2
      · rw [hstep]
        exact le_trans (le_max_right y x) (ih (max y x) (max y x) (Or.inl rfl))
      · rw [hstep]
        exact ih (max y z) x (Or.inr h2)

theorem lt_startId (tbl : List Int) : ∀ x ∈ tbl, x < startId tbl := by
  cases tbl with
  | nil => simp
  | cons y ys =>
    intro x hx
    have h := le_listMax_of_mem y ys x (List.mem_cons.mp hx)
    simp only [startId]
    omega

theorem startId_not_mem (tbl : List Int) : startId tbl ∉ tbl := by
  intro h
  exact absurd (lt_startId tbl _ h) (lt_irrefl _)

theorem nodup_applyLogOp (tbl : List Int) (op : LogOp) (h : tbl.Nodup) :
    (applyLogOp tbl op).Nodup := by
  cases op with
  | append =>
    simp only [applyLogOp]
    rw [List.nodup_append]
    refine ⟨h, List.nodup_singleton _, ?_⟩
    intro x hx hy
    rw [List.mem_singleton] at hy
    subst hy
    exact startId_not_mem tbl hx
  | deleteByIds ids =>
    exact h.filter _

theorem nodup_foldl_applyLogOp : ∀ (ops : List LogOp) (init : List Int),
    init.Nodup → (ops.foldl applyLogOp init).Nodup := by
  intro ops
  induction ops with
  | nil => intro init h; simpa using h
  | cons op rest ih =>
    intro init h
    simpa using ih (applyLogOp init op) (nodup_applyLogOp init op h)

theorem runLogOps_fst : ∀ (ops : List LogOp) (t tr : List Int),
    (ops.foldl
      (fun st op =>
        match op with
        | LogOp.append => (st.1 ++ [startId st.1], st.2 ++ [startId st.1])
        | LogOp.deleteByIds ids => (st.1.filter (fun i => decide (i ∉ ids)), st.2))
      (t, tr)).1 = ops.foldl applyLogOp t := by
  intro ops
  induction ops with
  | nil => intro t tr; rfl
  | cons op rest ih =>
    intro t tr
    cases op with
    | append => simpa [applyLogOp] using ih (t ++ [startId t]) (tr ++ [startId t])
    | deleteByIds ids => simpa [applyLogOp] using ih (t.filter (fun i => decide (i ∉ ids))) tr

/-! ### Claim theorems: identifier allocator -/

/-- C4 — the identifier allocator returns 1 on an empty table and
max + 1 otherwise; non-numeric and missing id cells are coerced to 0
before the maximum is taken; `nextId(∅) = 1`, `nextId({3,7,2}) = 8`, and
every existing id is strictly below the allocated one. -/
theorem next_id_allocation :
    startId [] = 1 ∧
    startId ([Cell.num 3, Cell.num 7, Cell.num 2].map coerceIdCell) = 8 ∧
    coerceIdCell (Cell.str ['g', 'a', 'r', 'b', 'a', 'g', 'e']) = 0 ∧
    coerceIdCell Cell.blank = 0 ∧
    ∀ (tbl : List Int), ∀ x ∈ tbl, x < startId tbl :=
  ⟨rfl, by decide, by decide, rfl, lt_startId⟩

/-- Witness for C4: the freshness clause evaluated at the table `[5]`. -/
theorem next_id_allocation_witness : (5 : Int) < startId [5] :=
  next_id_allocation.2.2.2.2 [5] 5 (by decide)

/-- C6, counterexample — after the run append, append, delete {2}, append,
the allocator's assignment trace is `[1, 2, 2]`: the final append hands out
id 2 again even though 2 was assigned earlier (and deleted in between), so
the allocator does reuse ids across deletions. -/
theorem log_id_reuse_counterexample :
    runLogOps [LogOp.append, LogOp.append, LogOp.deleteByIds [2], LogOp.append] =
      ([1, 2], [1, 2, 2]) ∧
    ¬ ([1, 2, 2] : List Int).Nodup :=
  ⟨by decide, by decide⟩

/-- C6, amended — for every sequence of append and delete-by-ids
operations starting from the empty table, the ids in the *current* table
stay pairwise distinct (each append allocates max + 1, above every current
id); but the allocator may re-assign an id that was previously assigned and
later deleted. -/
theorem log_ids_unique_amended : ∀ ops : List LogOp, ((runLogOps ops).1).Nodup := by
  intro ops
  rw [runLogOps, runLogOps_fst ops [] []]
  exact nodup_foldl_applyLogOp ops [] List.nodup_nil

/-! ### Lemmas about the template id codec -/

theorem pySplit_no_delim (d : Char) : ∀ s : List Char, d ∉ s → pySplit d s = [s] := by
  intro s
  induction s with
  | nil => intro _; rfl
  | cons c rest ih =>
    intro h
    have hc : ¬ (c = d) := fun e => h (List.mem_cons.mpr (Or.inl e.symm))
    have hrest : d ∉ rest := fun e => h (List.mem_cons_of_mem _ e)
    simp only [pySplit]
    rw [if_neg hc, ih hrest]

theorem pySplit_append_delim (d : Char) : ∀ (x s : List Char), d ∉ x →
    pySplit d (x ++ d :: s) = x :: pySplit d s := by
  intro x
  induction x with
  | nil =>
    intro s _
    simp [pySplit]
  | cons c x2 ih =>
    intro s h
    have hc : ¬ (c = d) := fun e => h (List.mem_cons.mpr (Or.inl e.symm))
    have hx2 : d ∉ x2 := fun e => h (List.mem_cons_of_mem _ e)
    simp only [List.cons_append, pySplit, List.append_eq]
    rw [if_neg hc, ih s hx2]

theorem pySplit_pyJoin (d : Char) : ∀ ids : List (List Char), ids ≠ [] →
    (∀ x ∈ ids, d ∉ x) → pySplit d (pyJoin d ids) = ids := by
  intro ids
  induction ids with
  | nil => intro h _; cases h rfl
  | cons x rest ih =>
    intro _ hall
    cases rest with
    | nil =>
      simpa [pyJoin] using pySplit_no_delim d x (hall x (by simp))
    | cons y t =>
      have hj : pyJoin d (x :: y :: t) = x ++ d :: pyJoin d (y :: t) := rfl
      rw [hj, pySplit_append_delim d x _ (hall x (by simp)),
        ih (by simp) (fun z hz => hall z (List.mem_cons_of_mem _ hz))]

/-! ### Claim theorems: template id codec -/

/-- C5, counterexample — the round trip fails for the id list `["12.0"]`,
which is free of both delimiter characters: the codec normalizes the
trailing `".0"` away, so `decode(encode(["12.0"])) = ["12"] ≠ ["12.0"]`. -/
theorem template_codec_roundtrip_counterexample :
    decodeTemplateIds (encodeExerciseIds [['1', '2', '.', '0']]) = [['1', '2']] ∧
    [['1', '2']] ≠ [['1', '2', '.', '0']] :=
  ⟨by decide, by decide⟩

/-- C5, amended — encode joins with `"|"` and decode splits on `"|"` if
present, else on `","` (legacy), normalizing each id (strip whitespace and
one trailing `".0"`); the round trip `decode(encode(ids)) = ids` holds for
every id list whose ids are non-empty, free of both delimiter characters,
and fixed under normalization; `decode("E1,E2") = ["E1","E2"]` and
`normalizeId("12.0") = "12"`. -/
theorem template_codec_roundtrip_amended :
    (∀ ids : List (List Char),
      (∀ x ∈ ids, x ≠ [] ∧ '|' ∉ x ∧ ',' ∉ x ∧ normalize_id x = x) →
      decodeTemplateIds (encodeExerciseIds ids) = ids) ∧
    decodeTemplateIds ['E', '1', ',', 'E', '2'] = [['E', '1'], ['E', '2']] ∧
    normalize_id ['1', '2', '.', '0'] = ['1', '2'] := by
  refine ⟨?_, by decide, by decide⟩
  intro ids h
  have hmap : ids.map normalize_id = ids := by
    have := List.map_congr_left (l := ids) (f := normalize_id) (g := id)
      (fun x hx => (h x hx).2.2.2)
    simpa using this
  rw [encodeExerciseIds, hmap]
  cases ids with
  | nil => rfl
  | cons x rest =>
    cases rest with
    | nil =>
      have hx := h x (by simp)
      have hjoin : pyJoin '|' [x] = x := rfl
      rw [hjoin, decodeTemplateIds, splitTemplateIds]
      simp only [if_neg hx.2.1, if_neg hx.1]
      rw [pySplit_no_delim ',' x hx.2.2.1]
      simp [hx.2.2.2]
    | cons y t =>
      have hjoin : pyJoin '|' (x :: y :: t) = x ++ '|' :: pyJoin '|' (y :: t) := rfl
      have hmem : '|' ∈ x ++ '|' :: pyJoin '|' (y :: t) :=
        List.mem_append_right _ (List.mem_cons_self _ _)
      have hne : x ++ '|' :: pyJoin '|' (y :: t) ≠ [] := by simp
      rw [hjoin, decodeTemplateIds, splitTemplateIds]
      simp only [if_pos hmem, if_neg hne]
      rw [← hjoin, pySplit_pyJoin '|' (x :: y :: t) (by simp)
        (fun z hz => (h z hz).2.1)]
      exact hmap

/-- Witness for C5: the round trip evaluated at `["E1", "E2", "E3"]`. -/
theorem template_codec_roundtrip_amended_witness :
    decodeTemplateIds (encodeExerciseIds [['E', '1'], ['E', '2'], ['E', '3']]) =
      [['E', '1'], ['E', '2'], ['E', '3']] :=
  template_codec_roundtrip_amended.1 _ (by decide)

/-! ### Lemmas about the mutation handlers -/

/-- The id column of a log table, as the delete filter reads it. -/
def logIds (rows : List LogRow) : List Int := rows.map (fun r => coerceIdCell r.id)

theorem logIds_deleteLogHandler (remote : List LogRow) (ids : List Int) :
    logIds (deleteLogHandler remote ids) =
      (logIds remote).filter (fun i => decide (i ∉ ids)) := by
  rw [deleteLogHandler, logIds, logIds, List.filter_map, List.filter_map, List.map_map]
  rfl

theorem mem_deleteLogHandler (remote : List LogRow) (ids : List Int) (r : LogRow) :
    r ∈ deleteLogHandler remote ids ↔
      r ∈ remote.map coerceLogRow ∧ coerceIdCell r.id ∉ ids := by
  simp [deleteLogHandler, List.mem_filter]

theorem mem_deleteTemplatesHandler (snap : List TemplateRow) (ids : List (List Char))
    (t : TemplateRow) :
    t ∈ deleteTemplatesHandler snap ids ↔ t ∈ snap ∧ t.template_id ∉ ids := by
  simp [deleteTemplatesHandler, List.mem_filter]

theorem setDescriptionAt_getD_ne (dflt : MasterRow) :
    ∀ (l : List MasterRow) (idx j : Nat) (d : List Char), j ≠ idx →
      (setDescriptionAt l idx d).getD j dflt = l.getD j dflt := by
  intro l
  induction l with
  | nil => intro idx j d _; rfl
  | cons r rs ih =>
    intro idx j d h
    cases idx with
    | zero =>
      cases j with
      | zero => cases h rfl
      | succ j2 => rfl
    | succ i2 =>
      cases j with
      | zero => rfl
      | succ j2 =>
        show (setDescriptionAt rs i2 d).getD j2 dflt = rs.getD j2 dflt
        exact ih i2 j2 d (fun e => h (by rw [e]))

theorem setDescriptionAt_length : ∀ (l : List MasterRow) (idx : Nat) (d : List Char),
    (setDescriptionAt l idx d).length = l.length := by
  intro l
  induction l with
  | nil => intro idx d; rfl
  | cons r rs ih =>
    intro idx d
    cases idx with
    | zero => rfl
    | succ i2 => simpa [setDescriptionAt] using ih i2 d

/-! ### Claim theorems: re-read discipline and delete semantics -/

/-- C3 — stale-view delete scenario: the log table holds rows with ids
1..5; one session deletes id 3 (the handler re-reads and replaces), then a
second session deletes id 5 from its stale 5-row view.  Because the second
handler also re-reads the current remote table (src/main.py line 604)
before filtering and replacing, the final table has exactly 3 rows and
contains neither id 3 nor id 5. -/
theorem stale_delete_scenario (remote : List LogRow)
    (h : logIds remote = [1, 2, 3, 4, 5]) :
    (deleteLogHandler (deleteLogHandler remote [3]) [5]).length = 3 ∧
    ∀ r ∈ deleteLogHandler (deleteLogHandler remote [3]) [5],
      coerceIdCell r.id ≠ 3 ∧ coerceIdCell r.id ≠ 5 := by
  have hids : logIds (deleteLogHandler (deleteLogHandler remote [3]) [5]) = [1, 2, 4] := by
    rw [logIds_deleteLogHandler, logIds_deleteLogHandler, h]
    decide
  constructor
  · have hlen := congrArg List.length hids
    simpa [logIds] using hlen
  · intro r hr
    have hmem : coerceIdCell r.id ∈ ([1, 2, 4] : List Int) := by
      rw [← hids]
      exact List.mem_map_of_mem _ hr
    simp only [List.mem_cons, List.not_mem_nil, or_false] at hmem
    rcases hmem with h1 | h1 | h1 <;> rw [h1] <;> exact ⟨by decide, by decide⟩

/-- Witness for C3: the scenario run on a concrete 5-row table. -/
theorem stale_delete_scenario_witness :
    (deleteLogHandler
      (deleteLogHandler
        [⟨Cell.num 1, []⟩, ⟨Cell.num 2, []⟩, ⟨Cell.num 3, []⟩,
         ⟨Cell.num 4, []⟩, ⟨Cell.num 5, []⟩] [3]) [5]).length = 3 :=
  (stale_delete_scenario _ (by decide)).1

/-- C2, counterexample — template deletion does NOT re-read before
replacing.  Scenario at a concrete input: the session snapshot holds one
template `TMP001`; meanwhile the remote table has grown to `TMP001, TMP002`.
Deleting `TMP001` writes the filter of the stale snapshot — the empty
table — whereas filtering a freshly re-read table would keep `TMP002`; the
handler (src/main.py lines 741-746) reads only `df_templates`, the
session's loaded snapshot. -/
theorem stale_replace_counterexample :
    deleteTemplatesHandler [⟨['T', 'M', 'P', '0', '0', '1'], []⟩]
        [['T', 'M', 'P', '0', '0', '1']] = [] ∧
    deleteTemplatesHandler
        [⟨['T', 'M', 'P', '0', '0', '1'], []⟩, ⟨['T', 'M', 'P', '0', '0', '2'], []⟩]
        [['T', 'M', 'P', '0', '0', '1']] = [⟨['T', 'M', 'P', '0', '0', '2'], []⟩] ∧
    ([] : List TemplateRow) ≠ [⟨['T', 'M', 'P', '0', '0', '2'], []⟩] :=
  ⟨by decide, by decide, by decide⟩

/-- C2, amended — only delete-by-ids on the training log re-reads the
remote table inside the handler (its replacement is a function of the
current remote table); the exercise-description update and template
deletion compute the replacement from the snapshot loaded at the top of
the script run (cached up to 5 seconds), with no fresh re-read in the
handler.  Each handler's output is characterized against its actual input
table. -/
theorem refresh_discipline_amended :
    (∀ (remote : List LogRow) (ids : List Int) (r : LogRow),
      r ∈ deleteLogHandler remote ids ↔
        r ∈ remote.map coerceLogRow ∧ coerceIdCell r.id ∉ ids) ∧
    (∀ (snap : List TemplateRow) (ids : List (List Char)) (t : TemplateRow),
      t ∈ deleteTemplatesHandler snap ids ↔ t ∈ snap ∧ t.template_id ∉ ids) ∧
    (∀ (snap : List MasterRow) (idx : Nat) (d : List Char) (j : Nat), j ≠ idx →
      (saveDescriptionHandler snap idx d).getD j ⟨[], [], []⟩ =
        snap.getD j ⟨[], [], []⟩) ∧
    (∀ (snap : List MasterRow) (idx : Nat) (d : List Char),
      (saveDescriptionHandler snap idx d).length = snap.length) := by
  refine ⟨mem_deleteLogHandler, mem_deleteTemplatesHandler, ?_, ?_⟩
  · intro snap idx d j h
    exact setDescriptionAt_getD_ne ⟨[], [], []⟩ snap idx j d h
  · intro snap idx d
    exact setDescriptionAt_length snap idx d

/-- Witness for C2 (amended): the description update at index 0 leaves the
row at index 1 of the snapshot unchanged. -/
theorem refresh_discipline_amended_witness :
    (saveDescriptionHandler [⟨['a'], ['b'], []⟩, ⟨['c'], ['d'], []⟩] 0 ['z']).getD 1
        ⟨[], [], []⟩ =
      ([⟨['a'], ['b'], []⟩, ⟨['c'], ['d'], []⟩] : List MasterRow).getD 1 ⟨[], [], []⟩ :=
  refresh_discipline_amended.2.2.1 [⟨['a'], ['b'], []⟩, ⟨['c'], ['d'], []⟩] 0 ['z'] 1
    (by decide)

/-- C10, counterexample — the training-log delete is not a pure filter on
the re-read snapshot: the handler first coerces the `ID` column
(src/main.py lines 608-609), so a surviving row whose `ID` cell is the
non-numeric string `"abc"` is rewritten with `ID = 0`; its fields are not
all unchanged. -/
theorem delete_frame_counterexample :
    deleteLogHandler [⟨Cell.str ['a', 'b', 'c'], [Cell.blank]⟩] [5] =
      [⟨Cell.num 0, [Cell.blank]⟩] ∧
    (⟨Cell.num 0, [Cell.blank]⟩ : LogRow) ≠ ⟨Cell.str ['a', 'b', 'c'], [Cell.blank]⟩ :=
  ⟨by decide, by decide⟩

/-- C10, amended — template deletion is a pure filter on its input table:
surviving rows are fully unchanged and keep their relative order
(sublist); the training-log delete is a pure filter on the *ID-coerced*
re-read snapshot: surviving rows keep their relative order and all fields
except that the `ID` cell is first coerced to an integer (non-numeric or
missing cells become 0). -/
theorem delete_frame_amended :
    (∀ (snap : List TemplateRow) (ids : List (List Char)),
      (deleteTemplatesHandler snap ids).Sublist snap) ∧
    (∀ (snap : List TemplateRow) (ids : List (List Char)) (t : TemplateRow),
      t ∈ snap → t.template_id ∉ ids → t ∈ deleteTemplatesHandler snap ids) ∧
    (∀ (remote : List LogRow) (ids : List Int),
      (deleteLogHandler remote ids).Sublist (remote.map coerceLogRow)) ∧
    (∀ r : LogRow, (coerceLogRow r).rest = r.rest) ∧
    (∀ (remote : List LogRow) (ids : List Int) (r : LogRow),
      r ∈ remote.map coerceLogRow → coerceIdCell r.id ∉ ids →
      r ∈ deleteLogHandler remote ids) := by
  refine ⟨?_, ?_, ?_, fun r => rfl, ?_⟩
  · intro snap ids
    exact List.filter_sublist snap
  · intro snap ids t ht hid
    exact (mem_deleteTemplatesHandler snap ids t).mpr ⟨ht, hid⟩
  · intro remote ids
    exact List.filter_sublist _
  · intro remote ids r hr hid
    exact (mem_deleteLogHandler remote ids r).mpr ⟨hr, hid⟩

/-- Witness for C10 (amended): a surviving row of a concrete one-row
delete is still present in the written table. -/
theorem delete_frame_amended_witness :
    (⟨Cell.num 1, []⟩ : LogRow) ∈ deleteLogHandler [⟨Cell.num 1, []⟩] [2] :=
  delete_frame_amended.2.2.2.2 [⟨Cell.num 1, []⟩] [2] ⟨Cell.num 1, []⟩
    (by decide) (by decide)

/-! ### Claim theorems: derivation engine -/

/-- C1, counterexample — the derivation engine has no special case for
`reps = 0`: for a 100 kg record with zero reps the code computes
`estimated1RM = 100`, not the `0.0` the claim asserts. -/
theorem epley_reps_zero_counterexample :
    est1RM ⟨100, ['k', 'g'], 0⟩ = 100 ∧ (100 : ℚ) ≠ 0 := by
  constructor
  · rw [est1RM, weightKg, if_neg (by decide)]
    norm_num
  · norm_num

/-- C1, amended — `weightKg = weight * 0.453592` exactly when the unit
compares equal to `"lbs"` case-insensitively, else `weightKg = weight`;
`estimated1RM = weightKg * (1 + reps / 30)` for every reps value,
including `reps = 0`, where it equals `weightKg` rather than `0.0`. -/
theorem derive_metrics_amended : ∀ r : LogMetricsRow,
    (pyLower r.unit = ['l', 'b', 's'] → weightKg r = r.weight * (453592 / 1000000 : ℚ)) ∧
    (pyLower r.unit ≠ ['l', 'b', 's'] → weightKg r = r.weight) ∧
    est1RM r = weightKg r * (1 + r.reps / 30) ∧
    (r.reps = 0 → est1RM r = weightKg r) := by
  intro r
  refine ⟨fun h => by rw [weightKg, if_pos h], fun h => by rw [weightKg, if_neg h],
    rfl, fun h => ?_⟩
  rw [est1RM, h]
  norm_num

/-- Witness for C1 (amended): the lbs branch evaluated on a concrete
upper-case record. -/
theorem derive_metrics_amended_witness :
    weightKg ⟨10, ['L', 'B', 'S'], 5⟩ = 10 * (453592 / 1000000 : ℚ) :=
  (derive_metrics_amended ⟨10, ['L', 'B', 'S'], 5⟩).1 (by decide)

/-! ### Claim theorems: append header discipline -/

/-- C7 — when the loaded log table is non-empty, the appended row's values
are positionally mapped to that table's live column order, whatever it is
(value at position `i` is the row's value for the `i`-th live header, with
`""` for a header the row does not carry); when the table is empty, the
fixed 12-column fallback header is used. -/
theorem append_header_mapping :
    (∀ cols : List (List Char), headersForAppend cols false = cols) ∧
    (∀ (cols : List (List Char)) (rowDict : List (List Char × Cell)) (i : Nat),
      i < cols.length →
      (rowValsFor (headersForAppend cols false) rowDict).getD i Cell.blank =
        (rowDict.lookup (cols.getD i [])).getD (Cell.str [])) ∧
    (∀ cols : List (List Char), headersForAppend cols true = fallbackLogHeaders) ∧
    fallbackLogHeaders.length = 12 := by
  refine ⟨fun cols => rfl, ?_, fun cols => rfl, rfl⟩
  intro cols rowDict i hi
  simp [rowValsFor, headersForAppend, List.getD, List.getElem?_map,
    List.getElem?_eq_getElem hi]

/-- Witness for C7: with live header order `[Unit, ID]` the value at
position 1 is the row's `ID` value. -/
theorem append_header_mapping_witness :
    (rowValsFor (headersForAppend [['U', 'n', 'i', 't'], ['I', 'D']] false)
        [(['I', 'D'], Cell.num 9)]).getD 1 Cell.blank =
      (([(['I', 'D'], Cell.num 9)] : List (List Char × Cell)).lookup
        (([['U', 'n', 'i', 't'], ['I', 'D']] : List (List Char)).getD 1 [])).getD
        (Cell.str []) :=
  append_header_mapping.2.1 [['U', 'n', 'i', 't'], ['I', 'D']]
    [(['I', 'D'], Cell.num 9)] 1 (by decide)

/-! ### Claim theorems: Template Master auto-creation -/

/-- C8 — loading the Template Master when the sheet does not exist is not
an error for the caller: the underlying read raises `WorksheetNotFound`,
the loader catches it, creates the sheet with exactly the 4-column header
`template_id, template_name, exercise_ids, created_at`, and returns an
empty record set. -/
theorem template_master_autocreate :
    loadTemplateMaster none = (⟨templateMasterHeaders, []⟩, []) ∧
    getWorksheetRecords none = Except.error WsError.worksheetNotFound ∧
    templateMasterHeaders =
      [['t', 'e', 'm', 'p', 'l', 'a', 't', 'e', '_', 'i', 'd'],
       ['t', 'e', 'm', 'p', 'l', 'a', 't', 'e', '_', 'n', 'a', 'm', 'e'],
       ['e', 'x', 'e', 'r', 'c', 'i', 's', 'e', '_', 'i', 'd', 's'],
       ['c', 'r', 'e', 'a', 't', 'e', 'd', '_', 'a', 't']] ∧
    templateMasterHeaders.length = 4 :=
  ⟨rfl, rfl, rfl, rfl⟩

/-! ### Lemmas about decimal rendering and parsing of template ids -/

theorem digitChar_isDigit (d : Nat) (h : d < 10) : (digitChar d).isDigit = true := by
  interval_cases d <;> decide

theorem digitVal_digitChar (d : Nat) (h : d < 10) : digitVal (digitChar d) = d := by
  interval_cases d <;> decide

theorem natDigitsAux_isDigit : ∀ (fuel n : Nat), n < fuel →
    ∀ c ∈ natDigitsAux fuel n, c.isDigit = true := by
  intro fuel
  induction fuel with
  | zero => intro n h; omega
  | succ fuel ih =>
    intro n h c hc
    rw [natDigitsAux] at hc
    by_cases h10 : n < 10
    · rw [if_pos h10] at hc
      rw [List.mem_singleton] at hc
      subst hc
      exact digitChar_isDigit n h10
    · rw [if_neg h10] at hc
      rcases List.mem_append.mp hc with h1 | h1
      · have hlt : n / 10 < fuel := by
          have := Nat.div_lt_self (by omega : 0 < n) (by omega : 1 < 10)
          omega
        exact ih (n / 10) hlt c h1
      · rw [List.mem_singleton] at h1
        subst h1
        exact digitChar_isDigit _ (Nat.mod_lt n (by omega))

theorem natDigitsAux_ne_nil : ∀ (fuel n : Nat), n < fuel → natDigitsAux fuel n ≠ [] := by
  intro fuel n h
  cases fuel with
  | zero => omega
  | succ fuel =>
    rw [natDigitsAux]
    by_cases h10 : n < 10
    · rw [if_pos h10]
      simp
    · rw [if_neg h10]
      simp

theorem foldl_natDigitsAux : ∀ (fuel n a : Nat), n < fuel →
    (natDigitsAux fuel n).foldl (fun acc c => acc * 10 + digitVal c) a =
      a * 10 ^ (natDigitsAux fuel n).length + n := by
  intro fuel
  induction fuel with
  | zero => intro n a h; omega
  | succ fuel ih =>
    intro n a h
    rw [natDigitsAux]
    by_cases h10 : n < 10
    · rw [if_pos h10]
      simp only [List.foldl_cons, List.foldl_nil, List.length_singleton]
      rw [digitVal_digitChar n h10]
      ring
    · rw [if_neg h10]
      have hlt : n / 10 < fuel := by
        have := Nat.div_lt_self (by omega : 0 < n) (by omega : 1 < 10)
        omega
      rw [List.foldl_append, ih (n / 10) a hlt]
      simp only [List.foldl_cons, List.foldl_nil, List.length_append,
        List.length_singleton]
      rw [digitVal_digitChar _ (Nat.mod_lt n (by omega))]
      rw [pow_succ, ← mul_assoc]
      have hmod := Nat.div_add_mod n 10
      set A := a * 10 ^ (natDigitsAux fuel (n / 10)).length
      omega

theorem natDigits_isDigit (n : Nat) : ∀ c ∈ natDigits n, c.isDigit = true :=
  natDigitsAux_isDigit (n + 1) n (Nat.lt_succ_self n)

theorem natDigits_ne_nil (n : Nat) : natDigits n ≠ [] :=
  natDigitsAux_ne_nil (n + 1) n (Nat.lt_succ_self n)

theorem foldl_zeros : ∀ k : Nat,
    (List.replicate k '0').foldl (fun acc c => acc * 10 + digitVal c) 0 = 0 := by
  intro k
  induction k with
  | zero => rfl
  | succ k ih => simpa [List.replicate_succ] using ih

theorem parseNatDigits_replicate_natDigits (k n : Nat) :
    parseNatDigits (List.replicate k '0' ++ natDigits n) = some n := by
  have hne : List.replicate k '0' ++ natDigits n ≠ [] := by
    intro h
    exact natDigits_ne_nil n (List.append_eq_nil.mp h).2
  have hall : (List.replicate k '0' ++ natDigits n).all Char.isDigit = true := by
    rw [List.all_eq_true]
    intro c hc
    rcases List.mem_append.mp hc with h1 | h1
    · rw [List.eq_of_mem_replicate h1]
      decide
    · exact natDigits_isDigit n c h1
  rw [parseNatDigits, if_neg hne, if_pos hall, List.foldl_append, foldl_zeros, natDigits,
    foldl_natDigitsAux (n + 1) n 0 (Nat.lt_succ_self n)]
  simp

theorem parseNatDigits_pad3 (n : Nat) : parseNatDigits (pad3 n) = some n :=
  parseNatDigits_replicate_natDigits _ n

theorem pyReplaceTMP_of_no_T : ∀ s : List Char, 'T' ∉ s → pyReplaceTMP s = s := by
  intro s
  induction s with
  | nil => intro _; rfl
  | cons c rest ih =>
    intro h
    have hc : c ≠ 'T' := by
      intro e
      subst e
      exact h (List.mem_cons_self _ _)
    have hrest : 'T' ∉ rest := fun e => h (List.mem_cons_of_mem _ e)
    rw [pyReplaceTMP.eq_def]
    split
    · rename_i heq
      injection heq with h1 _
      exact absurd h1 hc
    · rename_i c2 rest2 hcon heq
      injection heq with h1 h2
      subst h1
      subst h2
      rw [ih hrest]
    · rename_i heq
      exact (List.cons_ne_nil c rest heq).elim

theorem pad3_no_T (n : Nat) : 'T' ∉ pad3 n := by
  intro h
  rcases List.mem_append.mp h with h1 | h1
  · have := List.eq_of_mem_replicate h1
    simp at this
  · have := natDigits_isDigit n 'T' h1
    simp [Char.isDigit] at this

theorem pyReplaceTMP_renderTid (n : Nat) : pyReplaceTMP (renderTid n) = pad3 n := by
  have h1 : pyReplaceTMP ('T' :: 'M' :: 'P' :: pad3 n) = pyReplaceTMP (pad3 n) := rfl
  rw [renderTid, h1, pyReplaceTMP_of_no_T _ (pad3_no_T n)]

theorem parse_renderTid (n : Nat) :
    parseNatDigits (pyReplaceTMP (renderTid n)) = some n := by
  rw [pyReplaceTMP_renderTid, parseNatDigits_pad3]

theorem renderTid_inj : ∀ a b : Nat, renderTid a = renderTid b → a = b := by
  intro a b h
  have := congrArg (fun s => parseNatDigits (pyReplaceTMP s)) h
  simp only [parse_renderTid] at this
  exact Option.some.inj this

theorem nextTid_rendered (l : List (List Char)) (n : Nat)
    (h : l.getLast? = some (renderTid n)) : nextTid l = renderTid (n + 1) := by
  rw [nextTid, h]
  simp only [parse_renderTid]

theorem nextTid_parse_fail (l : List (List Char)) (lastId : List Char)
    (h : l.getLast? = some lastId) (hp : parseNatDigits (pyReplaceTMP lastId) = none) :
    nextTid l = renderTid (l.length + 1) := by
  rw [nextTid, h]
  simp only [hp]

theorem createTemplatesN_eq : ∀ m : Nat,
    createTemplatesN m = (List.range m).map (fun i => renderTid (i + 1)) := by
  intro m
  induction m with
  | zero => rfl
  | succ m ih =>
    rw [createTemplatesN, ih]
    cases m with
    | zero => decide
    | succ k =>
      have hlast : ((List.range (k + 1)).map (fun i => renderTid (i + 1))).getLast? =
          some (renderTid (k + 1)) := by
        rw [List.range_succ, List.map_append]
        simp [List.getLast?_concat]
      rw [nextTid_rendered _ (k + 1) hlast, List.range_succ (n := k + 1), List.map_append]
      simp

theorem createTemplatesN_nodup (m : Nat) : (createTemplatesN m).Nodup := by
  rw [createTemplatesN_eq]
  refine List.Nodup.map ?_ (List.nodup_range m)
  intro a b h
  have := renderTid_inj (a + 1) (b + 1) h
  omega

/-! ### Claim theorems: template id allocation -/

/-- C9, counterexample — the template id allocator does reuse ids across
deletions: with the table `[TMP001]` the allocator assigns `TMP002`
(creating the 2-template table), and after `TMP002` is deleted again the
next allocation parses the suffix of the last remaining id `TMP001` and
returns `TMP002` a second time — an id equal to a previously assigned
template id. -/
theorem template_id_reuse_counterexample :
    nextTid [['T', 'M', 'P', '0', '0', '1']] = ['T', 'M', 'P', '0', '0', '2'] ∧
    nextTid ((deleteTemplatesHandler
        [⟨['T', 'M', 'P', '0', '0', '1'], []⟩, ⟨['T', 'M', 'P', '0', '0', '2'], []⟩]
        [['T', 'M', 'P', '0', '0', '2']]).map TemplateRow.template_id) =
      ['T', 'M', 'P', '0', '0', '2'] :=
  ⟨by decide, by decide⟩

/-- C9, amended — `nextTemplateId` parses the numeric suffix of the LAST
row's id, increments it and zero-pads to 3 digits, falling back to
`"TMP" + (row count + 1)` zero-padded when parsing fails, and returns
`TMP001` on an empty table; across creation-only sequences starting from
the empty table the assigned ids are `TMP001, TMP002, …` in order and
pairwise distinct; but once templates are deleted, a later creation can
reassign a previously assigned template id. -/
theorem template_id_allocation_amended :
    nextTid [] = renderTid 1 ∧
    (∀ (l : List (List Char)) (n : Nat), l.getLast? = some (renderTid n) →
      nextTid l = renderTid (n + 1)) ∧
    (∀ (l : List (List Char)) (lastId : List Char), l.getLast? = some lastId →
      parseNatDigits (pyReplaceTMP lastId) = none →
      nextTid l = renderTid (l.length + 1)) ∧
    (∀ m : Nat, createTemplatesN m = (List.range m).map (fun i => renderTid (i + 1))) ∧
    (∀ m : Nat, (createTemplatesN m).Nodup) :=
  ⟨by decide, nextTid_rendered, nextTid_parse_fail, createTemplatesN_eq,
    createTemplatesN_nodup⟩

/-- Witness for C9 (amended): the increment clause evaluated at the
one-row table `[TMP005]`. -/
theorem template_id_allocation_amended_witness :
    nextTid [['T', 'M', 'P', '0', '0', '5']] = renderTid 6 :=
  template_id_allocation_amended.2.1 [['T', 'M', 'P', '0', '0', '5']] 5 (by decide)

end WorkoutApp
